import Mathlib

/-!
Shallow embedding of the SmartPlate AI recognition-and-history application
(src/App.tsx, src/services/geminiService.ts, src/types.ts).

Modelling conventions:
* TypeScript interface fields typed `string` can still be `undefined` at
  runtime, because `JSON.parse(text) as RecognitionData` is a compile-time
  cast that performs no checks; such provider-supplied fields are modelled
  as `Option String` (`none` = the property is absent / `undefined`).
* `JSON.parse` of the provider payload and of the persisted history are
  platform functions, not repository code; they are modelled as the three
  outcomes the code can observe (absent entry, parse failure, parsed value).
* React state updates (`setHistory` etc.) are modelled as explicit state
  passing on an `AppState` record; the save-on-change `useEffect`
  (App.tsx lines 35-37) fires after every commit that changes `history`,
  so each history-mutating operation is composed with `saveEffect`.
-/

namespace SmartPlate

/-- Nested vehicle-details group of `ScanResult` (src/types.ts). Fields are
`Option String` because the runtime values come unchecked from the parsed
provider payload. -/
structure Vehicle where
  make : Option String
  model : Option String
  color : Option String
  type : Option String
deriving DecidableEq

/-- One persisted recognition outcome, `ScanResult` in src/types.ts. `id`,
`timestamp` and `imageUrl` are always set by the controller itself; the
remaining fields are copied from the parsed provider payload and may be
absent at runtime. -/
structure ScanResult where
  id : String
  timestamp : Nat
  imageUrl : String
  plateNumber : Option String
  region : Option String
  vehicle : Vehicle
  confidence : Option String
deriving DecidableEq

/-- The parsed provider reply, `RecognitionData` in src/types.ts. Each of
the seven properties may be absent in the parsed JSON object, since the
client casts without validating. -/
structure RecognitionData where
  plate_number : Option String
  region : Option String
  vehicle_make : Option String
  vehicle_model : Option String
  vehicle_color : Option String
  vehicle_type : Option String
  confidence_score : Option String
deriving DecidableEq

/-- The failure modes of `recognizePlate` (src/services/geminiService.ts):
`noPayload` is the thrown `Error("Failed to get response from AI")` when
`response.text` is falsy; `unparsable` is the exception propagated from
`JSON.parse` on a malformed payload. -/
inductive RecognitionError where
  | noPayload
  | unparsable
deriving DecidableEq

/-- Embedding of `recognizePlate` (src/services/geminiService.ts lines
45-48): `text` is the value of `response.text` (`none` = `undefined`), and
`parse` models `JSON.parse` followed by reading the seven properties off
the resulting object (`none` = `JSON.parse` throws). The falsy check
`if (!text)` also rejects the empty string. The parsed object is returned
as-is: the source performs no response-side field validation. -/
def recognizePlate (text : Option String)
    (parse : String → Option RecognitionData) :
    Except RecognitionError RecognitionData :=
  match text with
  | none => Except.error RecognitionError.noPayload
  | some t =>
    if t = "" then Except.error RecognitionError.noPayload
    else
      match parse t with
      | none => Except.error RecognitionError.unparsable
      | some d => Except.ok d

/-- The `ScanResult` object literal built in `processImage` (src/App.tsx
lines 62-75). `Date.now()` is invoked twice there, first for `id` and then
for `timestamp`; `t1` and `t2` are the values returned by those two calls,
in that order. -/
def mkScanRecord (t1 t2 : Nat) (img : String) (d : RecognitionData) :
    ScanResult :=
  { id := toString t1
    timestamp := t2
    imageUrl := img
    plateNumber := d.plate_number
    region := d.region
    vehicle :=
      { make := d.vehicle_make
        model := d.vehicle_model
        color := d.vehicle_color
        type := d.vehicle_type }
    confidence := d.confidence_score }

/-- The history update in `processImage` (src/App.tsx line 78):
`[newResult, ...prev].slice(0, 10)`. -/
def prependHistory (r : ScanResult) (prev : List ScanResult) :
    List ScanResult :=
  (r :: prev).take 10

/-- The history update in `deleteHistoryItem` (src/App.tsx line 95):
`prev.filter(item => item.id !== id)`. -/
def removeById (id : String) (prev : List ScanResult) : List ScanResult :=
  prev.filter (fun item => item.id != id)

/-- The persisted entry under the key `plate_recognition_history`, as the
load effect (src/App.tsx lines 23-32) can observe it: `absent` means
`localStorage.getItem` returned `null`; `malformed` means an entry exists
but `JSON.parse` throws on it; `valid rs` means the entry parses to the
record list `rs`. -/
inductive Stored where
  | absent
  | malformed
  | valid (records : List ScanResult)
deriving DecidableEq

/-- The load effect (src/App.tsx lines 23-32): an absent entry leaves the
initial empty history in place, a parse failure is caught (logged only),
and a successfully parsed list is installed verbatim — the source applies
no trimming on load. -/
def loadHistory (stored : Stored) : List ScanResult :=
  match stored with
  | Stored.absent => []
  | Stored.malformed => []
  | Stored.valid records => records

/-- The component state held by the `App` component (src/App.tsx lines
16-20), plus the persisted entry it reads and writes. -/
structure AppState where
  image : Option String
  isProcessing : Bool
  result : Option ScanResult
  history : List ScanResult
  error : Option String
  storage : Stored
deriving DecidableEq

/-- The save effect (src/App.tsx lines 35-37): after every commit it
serialises the current in-memory history into the persisted entry. A
serialised list always parses back, so the stored outcome is `valid`. -/
def saveEffect (s : AppState) : AppState :=
  { s with storage := Stored.valid s.history }

/-- The user-facing message set by the catch branch of `processImage`
(src/App.tsx line 81). -/
def failureMessage : String :=
  "Failed to recognize plate. Please try a clearer image."

/-- The body of `clearHistory` (src/App.tsx lines 87-92): when the user
confirms, the in-memory history is emptied and the persisted entry is
removed; otherwise nothing happens. The save effect is applied separately
(see `step`), as it fires only after the commit. -/
def clearHistory (s : AppState) (confirmed : Bool) : AppState :=
  if confirmed then { s with history := [], storage := Stored.absent }
  else s

/-- The body of `deleteHistoryItem` (src/App.tsx lines 94-96). -/
def deleteHistoryItem (s : AppState) (id : String) : AppState :=
  { s with history := removeById id s.history }

/-- The user and network events the component reacts to. `resolveSuccess`
carries the parsed payload together with the two `Date.now()` readings
made while building the record; resolve events model the settling of the
promise awaited inside `processImage` and only arise while a call is
outstanding (`isProcessing = true`). -/
inductive Event where
  | selectImage (img : String)
  | clearImage
  | recognizeClick
  | resolveSuccess (d : RecognitionData) (t1 t2 : Nat)
  | resolveFailure
  | deleteItem (id : String)
  | clearAll (confirmed : Bool)
deriving DecidableEq

/-- One reaction of the component, at the granularity of a settled event
loop turn (handler plus any save effect its state change triggers).
Sources in src/App.tsx: `selectImage` = `handleFileUpload` lines 43-47;
`clearImage` = the discard button line 143; `recognizeClick` = the
recognize button lines 151-154, whose `disabled={isProcessing}` makes a
click while in-flight a no-op, plus the entry of `processImage` lines
52-57 with its `if (!image) return` guard; `resolveSuccess` = lines 62-78
with the `finally` of line 83; `resolveFailure` = lines 79-84;
`deleteItem` = lines 94-96; `clearAll` = lines 87-92. -/
def step (s : AppState) : Event → AppState
  | Event.selectImage img =>
      { s with image := some img, result := none, error := none }
  | Event.clearImage =>
      { s with image := none, result := none, error := none }
  | Event.recognizeClick =>
      if s.isProcessing then s
      else
        match s.image with
        | none => s
        | some _ => { s with isProcessing := true, error := none }
  | Event.resolveSuccess d t1 t2 =>
      if s.isProcessing then
        let newResult := mkScanRecord t1 t2 (s.image.getD "") d
        saveEffect
          { s with
            result := some newResult
            history := prependHistory newResult s.history
            isProcessing := false }
      else s
  | Event.resolveFailure =>
      if s.isProcessing then
        { s with error := some failureMessage, isProcessing := false }
      else s
  | Event.deleteItem id =>
      saveEffect (deleteHistoryItem s id)
  | Event.clearAll confirmed =>
      if confirmed then saveEffect (clearHistory s true) else s

/-- The component state after mount has settled (src/App.tsx lines 16-37):
initial fields, the load effect installing the parsed persisted history,
and the save effect re-serialising whatever history is then in memory. -/
def mountApp (stored : Stored) : AppState :=
  saveEffect
    { image := none
      isProcessing := false
      result := none
      history := loadHistory stored
      error := none
      storage := stored }

/-- A concrete record matching the spec's worked example, used as a test
vector by the concrete evaluations below. -/
def sampleRecord : ScanResult :=
  { id := "1000"
    timestamp := 1000
    imageUrl := "img"
    plateNumber := some "ABC123"
    region := some "CA"
    vehicle :=
      { make := some "Toyota"
        model := some "Camry"
        color := some "Blue"
        type := some "Sedan" }
    confidence := some "High" }

/-- A parsed payload in which all seven properties are absent, as produced
by casting the JSON text of an empty object. -/
def emptyParsed : RecognitionData :=
  { plate_number := none
    region := none
    vehicle_make := none
    vehicle_model := none
    vehicle_color := none
    vehicle_type := none
    confidence_score := none }

/-- A parsed payload holding the seven fields of the worked example in the
specification. -/
def fullParsed : RecognitionData :=
  { plate_number := some "ABC123"
    region := some "CA"
    vehicle_make := some "Toyota"
    vehicle_model := some "Camry"
    vehicle_color := some "Blue"
    vehicle_type := some "Sedan"
    confidence_score := some "High" }

/-- A second record sharing no identifier with `sampleRecord`. -/
def recordB : ScanResult :=
  { sampleRecord with id := "2000", timestamp := 2000 }

/-- A record distinct from `sampleRecord` but carrying the same identifier,
as two successful recognitions in the same millisecond would produce. -/
def dupRecord : ScanResult :=
  { sampleRecord with plateNumber := some "XYZ789" }

/-- A state in which one recognition call is outstanding. -/
def inFlightState : AppState :=
  { image := some "img"
    isProcessing := true
    result := none
    history := []
    error := none
    storage := Stored.valid [] }

/-- Helper: under pairwise-distinct identifiers, removing a present
identifier shortens the history by exactly one. -/
theorem removeById_length_of_mem (id : String) (l : List ScanResult)
    (hpw : l.Pairwise (fun a b => a.id ≠ b.id))
    (hex : ∃ r ∈ l, r.id = id) :
    (removeById id l).length + 1 = l.length := by
  induction l with
  | nil => simp at hex
  | cons a l ih =>
    rcases List.pairwise_cons.mp hpw with ⟨ha, hl⟩
    by_cases hid : a.id = id
    · have hrest : l.filter (fun item => item.id != id) = l := by
        refine List.filter_eq_self.mpr (fun b hb => ?_)
        have hne : a.id ≠ b.id := ha b hb
        simp only [bne_iff_ne, ne_eq, decide_not]
        simpa using fun hbid => hne (by rw [hid, hbid])
      simp [removeById, List.filter_cons, hid, hrest]
    · have hex' : ∃ r ∈ l, r.id = id := by
        rcases hex with ⟨r, hr, hrid⟩
        rcases List.mem_cons.mp hr with rfl | hr'
        · exact absurd hrid hid
        · exact ⟨r, hr', hrid⟩
      have hlen := ih hl hex'
      simp only [removeById] at hlen ⊢
      simp [List.filter_cons, bne_iff_ne, hid, hlen]

/-- C3: prepend puts the new record at the front, keeps at most 10 entries
and discards only a suffix (the oldest entries); when the history already
holds exactly 10 records the result again has length 10, the new record is
at index 0, the former indices 0..8 reappear at 1..9, and exactly the
former index-9 record is gone. -/
theorem prepend_spec (r : ScanResult) (l : List ScanResult) :
    ((prependHistory r l).length ≤ 10 ∧
      (prependHistory r l).head? = some r ∧
      ∃ dropped, r :: l = prependHistory r l ++ dropped) ∧
    (l.length = 10 →
      prependHistory r l = r :: l.take 9 ∧
      (prependHistory r l).length = 10 ∧
      ∀ i, i < 9 → (prependHistory r l)[i + 1]? = l[i]?) := by
  have hk : prependHistory r l = r :: l.take 9 := by
    simp [prependHistory, List.take_succ_cons]
  constructor
  · refine ⟨?_, ?_, ⟨(r :: l).drop 10, ?_⟩⟩
    · simp only [prependHistory, List.length_take]
      omega
    · rw [hk]; rfl
    · exact (List.take_append_drop 10 (r :: l)).symm
  · intro h10
    refine ⟨hk, ?_, ?_⟩
    · rw [hk]
      simp [List.length_take, h10]
    · intro i hi
      rw [hk, List.getElem?_cons_succ]
      exact List.getElem?_take_of_lt hi

/-- C3 witness: prepending onto a history of exactly 10 records keeps the
first nine and drops the tenth. -/
theorem prepend_spec_witness :
    (List.replicate 10 recordB).length = 10 ∧
    prependHistory sampleRecord (List.replicate 10 recordB) =
      sampleRecord :: (List.replicate 10 recordB).take 9 :=
  ⟨by decide,
    ((prepend_spec sampleRecord (List.replicate 10 recordB)).2 (by decide)).1⟩

/-- C5 counterexample: a history holding two distinct records that share
the identifier 1000 does contain a record with the given identifier, yet
remove-by-identifier deletes both of them, not exactly one. -/
theorem removeById_cex :
    (∃ r ∈ [sampleRecord, dupRecord], r.id = "1000") ∧
    sampleRecord ≠ dupRecord ∧
    [sampleRecord, dupRecord].length = 2 ∧
    (removeById "1000" [sampleRecord, dupRecord]).length = 0 := by
  refine ⟨by decide, by decide, rfl, by decide⟩

/-- C5 amended: remove-by-identifier deletes every record carrying the
given identifier, preserving the order of the rest; it is a no-op when the
identifier is absent, and it deletes exactly one record when one is
present and the identifiers in the history are pairwise distinct. -/
theorem removeById_amended (id : String) (l : List ScanResult) :
    (removeById id l).Sublist l ∧
    (∀ r ∈ removeById id l, r.id ≠ id) ∧
    ((∀ r ∈ l, r.id ≠ id) → removeById id l = l) ∧
    (l.Pairwise (fun a b => a.id ≠ b.id) → (∃ r ∈ l, r.id = id) →
      (removeById id l).length + 1 = l.length) := by
  refine ⟨List.filter_sublist l, ?_, ?_, removeById_length_of_mem id l⟩
  · intro r hr
    have := (List.mem_filter.mp hr).2
    simpa [bne_iff_ne] using this
  · intro habs
    refine List.filter_eq_self.mpr (fun a ha => ?_)
    simpa [bne_iff_ne] using habs a ha

/-- C5 witness: on a duplicate-free two-record history, removing the
present identifier 1000 deletes exactly one record. -/
theorem removeById_amended_witness :
    ([sampleRecord, recordB].Pairwise (fun a b => a.id ≠ b.id)) ∧
    (∃ r ∈ [sampleRecord, recordB], r.id = "1000") ∧
    (removeById "1000" [sampleRecord, recordB]).length + 1 =
      [sampleRecord, recordB].length :=
  ⟨by decide, by decide,
    (removeById_amended "1000" [sampleRecord, recordB]).2.2.2
      (by decide) (by decide)⟩

/-- C2 counterexample: a payload that parses to an object with all seven
fields absent is accepted by recognizePlate without any RecognitionError,
and the controller then builds a ScanRecord carrying the absent fields —
partial data is propagated, no field validation happens. -/
theorem recognize_validation_cex :
    recognizePlate (some "\x7b\x7d") (fun _ => some emptyParsed) =
      Except.ok emptyParsed ∧
    emptyParsed.plate_number = none ∧
    emptyParsed.region = none ∧
    emptyParsed.vehicle_make = none ∧
    emptyParsed.vehicle_model = none ∧
    emptyParsed.vehicle_color = none ∧
    emptyParsed.vehicle_type = none ∧
    emptyParsed.confidence_score = none ∧
    (step inFlightState (Event.resolveSuccess emptyParsed 1000 1000)
        ).history.head? =
      some (mkScanRecord 1000 1000 "img" emptyParsed) ∧
    (mkScanRecord 1000 1000 "img" emptyParsed).plateNumber = none ∧
    (mkScanRecord 1000 1000 "img" emptyParsed).confidence = none := by
  refine ⟨?_, rfl, rfl, rfl, rfl, rfl, rfl, rfl, ?_, rfl, rfl⟩
  · simp [recognizePlate]
  · simp [step, inFlightState, saveEffect, prependHistory]

/-- C2 amended: recognizePlate fails with a RecognitionError exactly when
the service returns no usable payload (absent or empty text) or the
payload is unparsable; a payload that parses is returned as-is, with no
validation of the seven fields, so missing fields flow onward. -/
theorem recognize_errors_amended (text : Option String)
    (parse : String → Option RecognitionData) :
    (recognizePlate text parse = Except.error RecognitionError.noPayload ↔
      text = none ∨ text = some "") ∧
    (∀ t, text = some t → t ≠ "" → parse t = none →
      recognizePlate text parse =
        Except.error RecognitionError.unparsable) ∧
    (∀ t d, text = some t → t ≠ "" → parse t = some d →
      recognizePlate text parse = Except.ok d) := by
  refine ⟨?_, ?_, ?_⟩
  · cases text with
    | none => simp [recognizePlate]
    | some t =>
      by_cases ht : t = ""
      · subst ht
        simp [recognizePlate]
      · simp only [recognizePlate, if_neg ht]
        cases hp : parse t with
        | none => simp [ht]
        | some d => simp [ht]
  · intro t htex ht hp
    subst htex
    simp [recognizePlate, if_neg ht, hp]
  · intro t d htex ht hp
    subst htex
    simp [recognizePlate, if_neg ht, hp]

/-- C2 witness: a nonempty parsable payload is returned without error. -/
theorem recognize_errors_amended_witness :
    recognizePlate (some "x") (fun _ => some fullParsed) =
      Except.ok fullParsed :=
  (recognize_errors_amended (some "x") (fun _ => some fullParsed)).2.2
    "x" fullParsed rfl (by decide) rfl

/-- C10 counterexample: the identifier and the timestamp come from two
separate clock readings; when the two readings straddle a millisecond
boundary (first call 1000, second call 1001) the identifier differs from
the decimal rendering of the timestamp. -/
theorem id_timestamp_cex :
    (mkScanRecord 1000 1001 "img" fullParsed).id = "1000" ∧
    (mkScanRecord 1000 1001 "img" fullParsed).timestamp = 1001 ∧
    (mkScanRecord 1000 1001 "img" fullParsed).id ≠
      toString (mkScanRecord 1000 1001 "img" fullParsed).timestamp := by
  refine ⟨rfl, rfl, by decide⟩

/-- C10 amended: the identifier is the decimal rendering of the first of
the two clock readings taken while building the record; whenever both
readings return the same millisecond (the typical case) the identifier
equals the decimal rendering of the timestamp, and any two records whose
first readings coincide share an identifier regardless of their other
fields. -/
theorem id_time_derived_amended (t1 t2 : Nat) (img : String)
    (d : RecognitionData) :
    (mkScanRecord t1 t2 img d).id = toString t1 ∧
    (mkScanRecord t1 t2 img d).timestamp = t2 ∧
    (t1 = t2 →
      (mkScanRecord t1 t2 img d).id =
        toString (mkScanRecord t1 t2 img d).timestamp) ∧
    (∀ t2' img' d', (mkScanRecord t1 t2' img' d').id =
      (mkScanRecord t1 t2 img d).id) := by
  refine ⟨rfl, rfl, ?_, ?_⟩
  · intro h
    simp [mkScanRecord, h]
  · intro t2' img' d'
    rfl

/-- C10 witness: when both readings fall in millisecond 1000 the
identifier equals the decimal rendering of the timestamp. -/
theorem id_time_derived_amended_witness :
    (mkScanRecord 1000 1000 "img" fullParsed).id =
      toString (mkScanRecord 1000 1000 "img" fullParsed).timestamp :=
  (id_time_derived_amended 1000 1000 "img" fullParsed).2.2.1 rfl

/-- Helper: every event preserves the 10-record bound on the in-memory
history. -/
theorem step_history_length_le (s : AppState) (e : Event)
    (h : s.history.length ≤ 10) : (step s e).history.length ≤ 10 := by
  cases e with
  | selectImage img => simpa [step] using h
  | clearImage => simpa [step] using h
  | recognizeClick =>
    simp only [step]
    split
    · exact h
    · cases s.image <;> simpa using h
  | resolveSuccess d t1 t2 =>
    simp only [step]
    split
    · simp only [saveEffect, prependHistory, List.length_take]
      omega
    · exact h
  | resolveFailure =>
    simp only [step]
    split <;> simpa using h
  | deleteItem id =>
    simp only [step, saveEffect, deleteHistoryItem, removeById]
    exact le_trans (List.length_filter_le _ _) h
  | clearAll confirmed =>
    simp only [step]
    split
    · simp [saveEffect, clearHistory]
    · exact h

/-- Helper: the bound propagates through any event sequence. -/
theorem foldl_step_history_le (events : List Event) (s : AppState)
    (h : s.history.length ≤ 10) :
    (events.foldl step s).history.length ≤ 10 := by
  induction events generalizing s with
  | nil => simpa using h
  | cons e es ih => exact ih (step s e) (step_history_length_le s e h)

/-- C1 counterexample: load applies no trimming, so mounting over a
persisted entry that parses to 11 records leaves an in-memory history of
length 11, violating the 10-record bound immediately after load. -/
theorem history_length_invariant_cex :
    (mountApp (Stored.valid (List.replicate 11 sampleRecord))
        ).history.length = 11 ∧
    ¬ (mountApp (Stored.valid (List.replicate 11 sampleRecord))
        ).history.length ≤ 10 := by
  refine ⟨rfl, by decide⟩

/-- C1 amended: load restores the persisted collection verbatim, without
trimming; provided the restored collection has length at most 10, the
in-memory history keeps length at most 10 after load and after every
subsequent prepend, remove-by-identifier and clear mutation. -/
theorem history_length_invariant (stored : Stored)
    (hload : (loadHistory stored).length ≤ 10) (events : List Event) :
    (events.foldl step (mountApp stored)).history.length ≤ 10 := by
  refine foldl_step_history_le events (mountApp stored) ?_
  simpa [mountApp, saveEffect] using hload

/-- C1 witness: from a one-record persisted entry, the bound holds after a
mount followed by a recognition cycle and a clear. -/
theorem history_length_invariant_witness :
    (loadHistory (Stored.valid [sampleRecord])).length ≤ 10 ∧
    (([Event.recognizeClick, Event.resolveFailure, Event.clearAll true] :
        List Event).foldl step
        (mountApp (Stored.valid [sampleRecord]))).history.length ≤ 10 :=
  ⟨by decide,
    history_length_invariant (Stored.valid [sampleRecord]) (by decide)
      [Event.recognizeClick, Event.resolveFailure, Event.clearAll true]⟩

/-- C4 counterexample: the clearHistory handler does remove the persisted
entry, but the save-on-change effect fired by the same commit re-creates
it holding the serialised empty collection, so after a settled
user-confirmed clear-all the entry is present, not removed. -/
theorem clear_removes_entry_cex :
    (clearHistory (mountApp (Stored.valid [sampleRecord])) true).storage =
      Stored.absent ∧
    (step (mountApp (Stored.valid [sampleRecord])) (Event.clearAll true)
        ).history = [] ∧
    (step (mountApp (Stored.valid [sampleRecord])) (Event.clearAll true)
        ).storage = Stored.valid [] ∧
    (step (mountApp (Stored.valid [sampleRecord])) (Event.clearAll true)
        ).storage ≠ Stored.absent := by
  refine ⟨rfl, rfl, rfl, by decide⟩

/-- C4 amended: after a user-confirmed clear-all the in-memory history has
length 0; the handler removes the persisted entry and the save-on-change
effect immediately re-persists the empty collection, so the entry ends up
holding the serialised empty list, and a subsequent load still yields an
empty collection. -/
theorem clear_all_amended (s : AppState) :
    (step s (Event.clearAll true)).history = [] ∧
    (clearHistory s true).storage = Stored.absent ∧
    (step s (Event.clearAll true)).storage = Stored.valid [] ∧
    loadHistory (step s (Event.clearAll true)).storage = [] := by
  refine ⟨?_, rfl, ?_, ?_⟩ <;>
    simp [step, saveEffect, clearHistory, loadHistory]

/-- C6: while a recognition call is outstanding, a further recognize
request leaves the state unchanged (the action is disabled); the
processing flag can only return to idle through the resolution of the
outstanding call, and either resolution (success or failure) does return
it to idle. -/
theorem single_inflight (s : AppState) (h : s.isProcessing = true) :
    step s Event.recognizeClick = s ∧
    (∀ e, (step s e).isProcessing = false →
      (∃ d t1 t2, e = Event.resolveSuccess d t1 t2) ∨
        e = Event.resolveFailure) ∧
    (∀ d t1 t2,
      (step s (Event.resolveSuccess d t1 t2)).isProcessing = false) ∧
    (step s Event.resolveFailure).isProcessing = false := by
  refine ⟨by simp [step, h], ?_, ?_, by simp [step, h]⟩
  · intro e he
    cases e with
    | resolveSuccess d t1 t2 => exact Or.inl ⟨d, t1, t2, rfl⟩
    | resolveFailure => exact Or.inr rfl
    | selectImage img => simp [step, h] at he
    | clearImage => simp [step, h] at he
    | recognizeClick => simp [step, h] at he
    | deleteItem id => simp [step, saveEffect, deleteHistoryItem, h] at he
    | clearAll confirmed =>
      simp [step, saveEffect, clearHistory, h, apply_ite] at he
  · intro d t1 t2
    simp [step, h, saveEffect]

/-- C6 witness: in a concrete in-flight state, a second recognize click is
a no-op. -/
theorem single_inflight_witness :
    inFlightState.isProcessing = true ∧
    step inFlightState Event.recognizeClick = inFlightState :=
  ⟨rfl, (single_inflight inFlightState rfl).1⟩

/-- C7: a failing recognition attempt ends with processing idle, the
non-empty user-facing failure message set as the error, and the result,
history and persisted entry all unchanged. -/
theorem failure_transition (s : AppState) (h : s.isProcessing = true) :
    (step s Event.resolveFailure).isProcessing = false ∧
    (step s Event.resolveFailure).error = some failureMessage ∧
    failureMessage ≠ "" ∧
    (step s Event.resolveFailure).result = s.result ∧
    (step s Event.resolveFailure).history = s.history ∧
    (step s Event.resolveFailure).storage = s.storage := by
  refine ⟨?_, ?_, by decide, ?_, ?_, ?_⟩ <;> simp [step, h]

/-- C7 witness: a failure resolved in a concrete in-flight state leaves
the empty history and absent result unchanged and sets the message. -/
theorem failure_transition_witness :
    (step inFlightState Event.resolveFailure).isProcessing = false ∧
    (step inFlightState Event.resolveFailure).error =
      some failureMessage ∧
    (step inFlightState Event.resolveFailure).history =
      inFlightState.history :=
  ⟨(failure_transition inFlightState rfl).1,
    (failure_transition inFlightState rfl).2.1,
    (failure_transition inFlightState rfl).2.2.2.2.1⟩

/-- C8: a successful recognition whose parsed payload carries the seven
field values builds a ScanRecord copying plate number, region, the four
vehicle attributes and the confidence label, stores it as the current
result and places it at index 0 of the history. -/
theorem success_record (s : AppState) (d : RecognitionData) (t1 t2 : Nat)
    (hproc : s.isProcessing = true)
    (p rg mk md c ty cs : String)
    (h1 : d.plate_number = some p) (h2 : d.region = some rg)
    (h3 : d.vehicle_make = some mk) (h4 : d.vehicle_model = some md)
    (h5 : d.vehicle_color = some c) (h6 : d.vehicle_type = some ty)
    (h7 : d.confidence_score = some cs) :
    ∃ newResult : ScanResult,
      (step s (Event.resolveSuccess d t1 t2)).result = some newResult ∧
      (step s (Event.resolveSuccess d t1 t2)).history.head? =
        some newResult ∧
      newResult.plateNumber = some p ∧
      newResult.region = some rg ∧
      newResult.vehicle.make = some mk ∧
      newResult.vehicle.model = some md ∧
      newResult.vehicle.color = some c ∧
      newResult.vehicle.type = some ty ∧
      newResult.confidence = some cs := by
  refine ⟨mkScanRecord t1 t2 (s.image.getD "") d, ?_, ?_, ?_, ?_, ?_, ?_,
    ?_, ?_, ?_⟩ <;>
    simp [step, hproc, saveEffect, prependHistory, List.take_succ_cons,
      mkScanRecord, h1, h2, h3, h4, h5, h6, h7]

/-- C8 witness: resolving the worked-example payload in a concrete
in-flight state makes the stored result and the head of the history the
same record. -/
theorem success_record_witness :
    (step inFlightState (Event.resolveSuccess fullParsed 1000 1000)
        ).result =
      (step inFlightState (Event.resolveSuccess fullParsed 1000 1000)
          ).history.head? := by
  obtain ⟨nr, hres, hhead, -⟩ :=
    success_record inFlightState fullParsed 1000 1000 rfl
      "ABC123" "CA" "Toyota" "Camry" "Blue" "Sedan" "High"
      rfl rfl rfl rfl rfl rfl rfl
  rw [hres, hhead]

/-- C9: mounting over an absent or malformed persisted entry yields an
empty in-memory history and leaves the user-visible error absent. -/
theorem load_fallback (stored : Stored)
    (h : stored = Stored.absent ∨ stored = Stored.malformed) :
    (mountApp stored).history = [] ∧ (mountApp stored).error = none := by
  rcases h with rfl | rfl <;> exact ⟨rfl, rfl⟩

/-- C9 witness: mounting with the entry absent gives an empty history and
no error. -/
theorem load_fallback_witness :
    (mountApp Stored.absent).history = [] ∧
    (mountApp Stored.absent).error = none :=
  load_fallback Stored.absent (Or.inl rfl)

end SmartPlate
